import Mathlib

/-!
Verification development for the s3readerat repository.

The repository contains two reader variants over S3 range requests:

* `S3ReaderAt` (src/s3readerat.go): an io.ReaderAt built on GetObject with a
  Range header, with lazy size resolution via HeadObject and a one-shot
  region-redirect retry (`extractRegionFromError`, `s3ClientInRegion`).
* `SeekingS3` (src/unnamed/part_000, package seekinghttp): an
  io.ReadSeeker/io.ReaderAt keeping the bytes of the most recent fetch as a
  single-window cache (`last`, `lastOffset`).

The embedding models byte contents as `List Nat`, Go int64 values as `Int`,
and the network as explicit backend functions.  Network responses are data:
a HeadObject response is an `Option Int` (ContentLength, or failure), and a
GetObject response for an inclusive byte range is an `Option (List Nat)`
(the response body, or failure).  Every operation returns, besides its Go
results, the post-state and the list of requests it issued, so that claims
about request counts are statable.

Two levels of modelling are used, matching the two levels of the source:

* a functional level (`S3ReaderAt.ReadAt`, `S3ReaderAt.Size`,
  `SeekingS3.ReadAt`, `SeekingS3.Size`) in which one metadata request or one
  range fetch is a single abstract backend call; and
* a client level (`S3ReaderAt.getObject`, `S3ReaderAt.headObject`,
  `S3ReaderAt.s3Client`, `S3ReaderAt.s3ClientInRegion`,
  `extractRegionFromError`, `S3ReaderAt.SizeMR`) exposing the
  region-redirect retry of src/s3readerat.go lines 209-302, where the
  backend is a function from the S3 client used to the response.
-/

/-- Status outcomes of the modelled IO operations.  `eof` is io.EOF (the
EndOfData sentinel); `headErr` an S3 HeadObject failure surfaced by Size;
`sizeInvalid` the "S3 object size is invalid" / "no content length" error;
`getErr` an S3 GetObject failure surfaced by ReadAt. -/
inductive IOErr where
  | eof
  | headErr
  | sizeInvalid
  | getErr
  deriving DecidableEq, Repr

/-- Network requests issued by the functional-level model: one HeadObject
metadata request, or one GetObject fetch of the inclusive byte range
[first, last] (the Go code sends it as the header "bytes=first-last"). -/
inductive Req where
  | headReq
  | getReq (first last : Int)
  deriving DecidableEq, Repr

/-- Functional-level backend: `head` is the HeadObject ContentLength (none =
request failed), `get first last` is the GetObject response body for the
inclusive range [first, last] (none = request failed). -/
structure FuncBackend where
  head : Option Int
  get : Int → Int → Option (List Nat)

/-- An S3 client, modelled by the region it is bound to (src/s3readerat.go
always constructs clients via s3.New on options whose only varying field
here is Region). -/
structure Client where
  region : String
  deriving DecidableEq, Repr

/-- State of an S3ReaderAt (src/s3readerat.go lines 20-28): the cached
size (-1 = unknown), the s3.Client reference, and the s3.Options used in
multi-region mode (modelled by their Region field).  NewWithOptions
guarantees exactly one of `client`/`options` is present initially. -/
structure S3ReaderAt where
  size : Int
  client : Option Client
  options : Option String
  deriving DecidableEq, Repr

/-- State of a SeekingS3 (src/unnamed/part_000 lines 18-27): seek cursor
`offset`, the last-range cache `last` (none = no cache yet; the Go field is
a *bytes.Buffer pointer) with its starting offset `lastOffset`, and the
cached size (-1 = unknown). -/
structure SeekingS3 where
  offset : Int
  last : Option (List Nat)
  lastOffset : Int
  size : Int
  deriving DecidableEq, Repr

/-- Result of a positional read on the S3ReaderAt model: the returned count
`n`, the bytes `data` actually written into the caller's buffer (a prefix of
the buffer), the returned error, the post-state, and the requests issued. -/
structure RAResult where
  n : Int
  data : List Nat
  err : Option IOErr
  st : S3ReaderAt
  reqs : List Req
  deriving DecidableEq, Repr

/-- Result of a positional read on the SeekingS3 model (same fields as
`RAResult`, over the SeekingS3 state). -/
structure SeekResult where
  n : Int
  data : List Nat
  err : Option IOErr
  st : SeekingS3
  reqs : List Req
  deriving DecidableEq, Repr

/-- Size (src/s3readerat.go lines 114-141): return the cached size if it is
already non-negative; otherwise issue one HeadObject metadata request,
reject a negative ContentLength, and cache the result.  (At the client
level the metadata request may internally retry once in another region; see
`S3ReaderAt.SizeMR` below.  That refinement is irrelevant to the
functional-level claims, which count it as one abstract metadata request.) -/
def S3ReaderAt.Size (bk : FuncBackend) (st : S3ReaderAt) :
    Except IOErr Int × S3ReaderAt × List Req :=
  if 0 ≤ st.size then (.ok st.size, st, [])
  else
    match bk.head with
    | none => (.error .headErr, st, [.headReq])
    | some cl =>
      if cl < 0 then (.error .sizeInvalid, st, [.headReq])
      else (.ok cl, { st with size := cl }, [.headReq])

/-- ReadFull step of ReadAt (src/s3readerat.go lines 190-204): io.ReadFull
reads min(len body, plen) bytes of the response body into the buffer view of
length `plen`; a short body yields io.ErrUnexpectedEOF (or io.EOF when
empty), which line 193 converts to io.EOF; when the read is full, the
pending clamp status `returnErr` (io.EOF if the range was clamped) is
installed by lines 202-204.  Returns (n, bytes written, error). -/
def readFullStep (plen : Nat) (body : List Nat) (returnErr : Option IOErr) :
    Int × List Nat × Option IOErr :=
  ((min body.length plen : Nat), body.take plen,
    if body.length < plen then some IOErr.eof else returnErr)

/-- ReadAt (src/s3readerat.go lines 147-207).  A zero-length buffer returns
immediately.  Otherwise resolve the size, clamp the requested inclusive
range [off, off+plen-1] to end at size-1 (recording io.EOF as the pending
status), return (0, io.EOF) without any fetch if the clamped range is empty,
and otherwise issue one GetObject for the clamped range and read the body. -/
def S3ReaderAt.ReadAt (bk : FuncBackend) (st : S3ReaderAt) (plen : Nat)
    (off : Int) : RAResult :=
  if plen = 0 then ⟨0, [], none, st, []⟩
  else
    let reqFirst := off
    let reqLast := off + (plen : Int) - 1
    match S3ReaderAt.Size bk st with
    | (.error e, st1, reqs) => ⟨0, [], some e, st1, reqs⟩
    | (.ok _, st1, reqs) =>
      if st1.size ≠ -1 ∧ st1.size - 1 < reqLast then
        let reqLast' := st1.size - 1
        if reqLast' < reqFirst then ⟨0, [], some .eof, st1, reqs⟩
        else
          let plen' := (reqLast' - reqFirst + 1).toNat
          match bk.get reqFirst reqLast' with
          | none => ⟨0, [], some .getErr, st1, reqs ++ [.getReq reqFirst reqLast']⟩
          | some body =>
            let r := readFullStep plen' body (some .eof)
            ⟨r.1, r.2.1, r.2.2, st1, reqs ++ [.getReq reqFirst reqLast']⟩
      else
        match bk.get reqFirst reqLast with
        | none => ⟨0, [], some .getErr, st1, reqs ++ [.getReq reqFirst reqLast]⟩
        | some body =>
          let r := readFullStep plen body none
          ⟨r.1, r.2.1, r.2.2, st1, reqs ++ [.getReq reqFirst reqLast]⟩

/-- fmtRange (src/unnamed/part_000 lines 46-55): the inclusive range pair
(from, to) formatted into the "bytes=from-to" header; for a zero-length
request the code sets to = from (a one-byte range). -/
def fmtRange (first l : Int) : Int × Int :=
  (first, if l = 0 then first else first + (l - 1))

/-- Size (src/unnamed/part_000 lines 193-218): return the cached size if it
is greater than -1; otherwise one HeadObject, rejecting a negative
ContentLength ("no content length for Size()"), then cache. -/
def SeekingS3.Size (bk : FuncBackend) (st : SeekingS3) :
    Except IOErr Int × SeekingS3 × List Req :=
  if st.size > -1 then (.ok st.size, st, [])
  else
    match bk.head with
    | none => (.error .headErr, st, [.headReq])
    | some cl =>
      if cl < 0 then (.error .sizeInvalid, st, [.headReq])
      else (.ok cl, { st with size := cl }, [.headReq])

/-- ReadAt (src/unnamed/part_000 lines 58-146).  Resolve the size; return
(0, io.EOF) when off ≥ size; serve from the cache when a cached window
exists, off is strictly greater than lastOffset, and off+len(buf) is
strictly less than the cache end (lines 72-81); otherwise clamp bytesToRead
to size - off, reset the cache (lines 103-110), issue one GetObject for
fmtRange off bytesToRead, store the body as the new cache at offset off,
copy min(len(buf), len(body)) bytes out, and return bytesToRead with the
GetObject error, which is nil on this path (the err == io.EOF test on line
142 is a no-op since err is nil after a successful GetObject). -/
def SeekingS3.ReadAt (bk : FuncBackend) (st : SeekingS3) (blen : Nat)
    (off : Int) : SeekResult :=
  match SeekingS3.Size bk st with
  | (.error e, st1, reqs) => ⟨0, [], some e, st1, reqs⟩
  | (.ok size, st1, reqs) =>
    if off ≥ size then ⟨0, [], some .eof, st1, reqs⟩
    else
      let hit : Option (List Nat) :=
        match st1.last with
        | some c =>
          if st1.lastOffset < off ∧
              off + (blen : Int) < st1.lastOffset + (c.length : Int) then
            some ((c.drop (off - st1.lastOffset).toNat).take blen)
          else none
        | none => none
      match hit with
      | some data => ⟨(blen : Int), data, none, st1, reqs⟩
      | none =>
        let bytesToRead : Int :=
          if off + (blen : Int) > size then size - off else (blen : Int)
        let rng := fmtRange off bytesToRead
        let st2 := { st1 with last := some [] }
        match bk.get rng.1 rng.2 with
        | none => ⟨0, [], some .getErr, st2, reqs ++ [.getReq rng.1 rng.2]⟩
        | some body =>
          let st3 := { st2 with last := some body, lastOffset := off }
          ⟨bytesToRead, body.take blen, none, st3, reqs ++ [.getReq rng.1 rng.2]⟩

/-- Backend induced by a remote object: HeadObject reports its length and a
range fetch of [first, last] returns the object bytes in that range (S3
clamps a range reaching past the object end to the object end, which the
take below reproduces; the theorems only exercise in-bounds ranges). -/
def objBackend (object : List Nat) : FuncBackend :=
  { head := some (object.length : Int)
    get := fun first last =>
      some ((object.drop first.toNat).take (last - first + 1).toNat) }

/-- Validity of the SeekingS3 last-range cache against the remote object:
when a cached window exists it starts at a non-negative offset, ends within
the object, and holds exactly the object bytes starting at lastOffset. -/
def cacheValid (object : List Nat) (st : SeekingS3) : Prop :=
  ∀ c, st.last = some c →
    0 ≤ st.lastOffset ∧
    st.lastOffset + (c.length : Int) ≤ (object.length : Int) ∧
    c = (object.drop st.lastOffset.toNat).take c.length

/-- Cache-hit condition actually tested by SeekingS3.ReadAt (src/unnamed/
part_000 lines 72-74): a cached window exists, off is strictly beyond its
start, and off+len(buf) is strictly before its end. -/
def hitAt (st : SeekingS3) (blen : Nat) (off : Int) : Prop :=
  ∃ c, st.last = some c ∧ st.lastOffset < off ∧
    off + (blen : Int) < st.lastOffset + (c.length : Int)

instance (st : SeekingS3) (blen : Nat) (off : Int) :
    Decidable (hitAt st blen off) := by
  unfold hitAt
  cases h : st.last with
  | none => exact .isFalse (by simp [h])
  | some c =>
    refine decidable_of_iff
      (st.lastOffset < off ∧ off + (blen : Int) < st.lastOffset + (c.length : Int)) ?_
    simp [h]

/-- Errors at the client level, as inspected by extractRegionFromError
(src/s3readerat.go lines 285-302): an awshttp.ResponseError carrying a
status code and the value of the X-Amz-Bucket-Region header ("" = header
absent), the "S3 object size is invalid" error raised by Size, or any other
error (not a ResponseError), tagged to keep distinct values distinct. -/
inductive GoErr where
  | responseError (statusCode : Nat) (regionHeader : String)
  | invalidSize (cl : Int)
  | otherErr (tag : Nat)
  deriving DecidableEq, Repr

/-- extractRegionFromError (src/s3readerat.go lines 285-302): recovery is
possible (some region) exactly when the error is a ResponseError whose
status code is 3xx and whose X-Amz-Bucket-Region header is non-empty; in
every other case the Go function returns ("", originalErr), modelled as
none (the callers then surface the original error unchanged). -/
def extractRegionFromError : GoErr → Option String
  | .responseError status header =>
    if status / 100 ≠ 3 then none
    else if header = "" then none
    else some header
  | .invalidSize _ => none
  | .otherErr _ => none

/-- Result of a client-level operation: the Go result, the post-state, the
clients each outbound request was sent to (in order), and the clients
constructed by s3.New during the operation (in order). -/
structure MRResult (α : Type) where
  res : Except GoErr α
  st : S3ReaderAt
  reqs : List Client
  newClients : List Client
  deriving Repr

/-- s3Client (src/s3readerat.go lines 209-221): return the cached client if
present; otherwise, in multi-region mode, construct (and cache) the default
client for the configured region; with neither client nor options return
nil.  Returns (client, post-state, clients constructed). -/
def S3ReaderAt.s3Client (st : S3ReaderAt) :
    Option Client × S3ReaderAt × List Client :=
  match st.client with
  | some c => (some c, st, [])
  | none =>
    match st.options with
    | none => (none, st, [])
    | some r =>
      let c : Client := ⟨r⟩
      (some c, { st with client := some c }, [c])

/-- s3ClientInRegion (src/s3readerat.go lines 223-238): nil in single-region
mode (no options); in multi-region mode reuse the cached client when the
configured region already equals the requested one, and otherwise construct
a fresh client bound to the requested region, without storing it.  Returns
(client, clients constructed). -/
def S3ReaderAt.s3ClientInRegion (st : S3ReaderAt) (region : String) :
    Option Client × List Client :=
  match st.options with
  | none => (none, [])
  | some r0 =>
    if r0 = region ∧ st.client.isSome then (st.client, [])
    else (some ⟨region⟩, [⟨region⟩])

/-- Shared body of headObject (src/s3readerat.go lines 240-259) and
getObject (lines 261-280), which are identical up to the S3 operation
performed: issue the request on the default client; on failure, if
extractRegionFromError yields a region and a client bound to that region is
available, retry exactly once on that client and return its outcome as-is;
otherwise return the original error.  The backend `respond` maps the client
used to the response.  The nil-client branch is unreachable for states
built by NewWithOptions, which requires one of client/options. -/
def S3ReaderAt.withRegionRetry {α : Type} (respond : Client → Except GoErr α)
    (st : S3ReaderAt) : MRResult α :=
  match S3ReaderAt.s3Client st with
  | (none, st1, ks) => ⟨.error (.otherErr 0), st1, [], ks⟩
  | (some c, st1, ks) =>
    match respond c with
    | .ok v => ⟨.ok v, st1, [c], ks⟩
    | .error e0 =>
      match extractRegionFromError e0 with
      | none => ⟨.error e0, st1, [c], ks⟩
      | some region =>
        match S3ReaderAt.s3ClientInRegion st1 region with
        | (none, ks2) => ⟨.error e0, st1, [c], ks ++ ks2⟩
        | (some c2, ks2) => ⟨respond c2, st1, [c, c2], ks ++ ks2⟩

/-- headObject (src/s3readerat.go lines 240-259): HeadObject with the
one-shot region retry; the backend maps the client to the response's
ContentLength. -/
def S3ReaderAt.headObject (bh : Client → Except GoErr Int)
    (st : S3ReaderAt) : MRResult Int :=
  S3ReaderAt.withRegionRetry bh st

/-- getObject (src/s3readerat.go lines 261-280): GetObject with the one-shot
region retry; the backend maps the client to the response body. -/
def S3ReaderAt.getObject {α : Type} (bg : Client → Except GoErr α)
    (st : S3ReaderAt) : MRResult α :=
  S3ReaderAt.withRegionRetry bg st

/-- Size at the client level (src/s3readerat.go lines 114-141 together with
headObject lines 240-259): the cached size is returned without any request;
otherwise headObject runs (with its possible in-region retry), a negative
ContentLength is rejected, and the result is cached. -/
def S3ReaderAt.SizeMR (bh : Client → Except GoErr Int)
    (st : S3ReaderAt) : MRResult Int :=
  if 0 ≤ st.size then ⟨.ok st.size, st, [], []⟩
  else
    match S3ReaderAt.headObject bh st with
    | ⟨.error e, st1, reqs, ks⟩ => ⟨.error e, st1, reqs, ks⟩
    | ⟨.ok cl, st1, reqs, ks⟩ =>
      if cl < 0 then ⟨.error (.invalidSize cl), st1, reqs, ks⟩
      else ⟨.ok cl, { st1 with size := cl }, reqs, ks⟩

/-- NewWithOptions (src/s3readerat.go lines 78-107): construction fails
unless exactly one of client/options is supplied and any supplied size is
non-negative; the cached size starts at the supplied size or at -1. -/
def S3ReaderAt.NewWithOptions (client : Option Client)
    (options : Option String) (sizeOpt : Option Int) : Option S3ReaderAt :=
  if client.isNone ∧ options.isNone then none
  else if client.isSome ∧ options.isSome then none
  else
    match sizeOpt with
    | some sz => if sz < 0 then none else some ⟨sz, client, options⟩
    | none => some ⟨-1, client, options⟩

/-! Helper lemmas shared by the claim theorems. -/

/-- Cached-size fast path of S3ReaderAt.Size (src/s3readerat.go lines
115-117): a non-negative cached size is returned with no request and no
state change. -/
theorem S3ReaderAt.Size_cached (bk : FuncBackend) (st : S3ReaderAt)
    (h : 0 ≤ st.size) : S3ReaderAt.Size bk st = (.ok st.size, st, []) := by
  unfold S3ReaderAt.Size
  rw [if_pos h]

/-- Cached-size fast path of SeekingS3.Size (src/unnamed/part_000 lines
194-197). -/
theorem SeekingS3.Size_fast_path (bk : FuncBackend) (st : SeekingS3)
    (h : st.size > -1) : SeekingS3.Size bk st = (.ok st.size, st, []) := by
  unfold SeekingS3.Size
  rw [if_pos h]

/-- Taking a sub-slice of a slice of a list is a slice of the list. -/
theorem take_drop_take (l : List Nat) (L cl s k : Nat) (h : s + k ≤ cl) :
    (((l.drop L).take cl).drop s).take k = (l.drop (L + s)).take k := by
  rw [List.drop_take, List.drop_drop, List.take_take]
  congr 1
  omega

/-- In-bounds read on S3ReaderAt over a well-behaved backend: with the size
resolved and [off, off+plen) inside the object, ReadAt performs exactly one
range fetch and returns the requested slice with nil error. -/
theorem S3ReaderAt.ReadAt_in_bounds (object : List Nat) (st : S3ReaderAt)
    (plen : Nat) (off : Int) (hoff : 0 ≤ off) (hlen : 0 < plen)
    (hend : off + (plen : Int) ≤ (object.length : Int))
    (hsz : st.size = (object.length : Int)) :
    S3ReaderAt.ReadAt (objBackend object) st plen off =
      ⟨(plen : Int), (object.drop off.toNat).take plen, none, st,
        [.getReq off (off + (plen : Int) - 1)]⟩ := by
  have h0 : 0 ≤ st.size := by omega
  unfold S3ReaderAt.ReadAt
  rw [if_neg (by omega : ¬ plen = 0), S3ReaderAt.Size_cached _ _ h0]
  simp only
  rw [if_neg (by omega : ¬ (st.size ≠ -1 ∧ st.size - 1 < off + (plen : Int) - 1))]
  simp only [objBackend]
  have htn : ((off + (plen : Int) - 1) - off + 1).toNat = plen := by omega
  rw [htn]
  simp only [readFullStep]
  have hblen : ((object.drop off.toNat).take plen).length = plen := by
    simp only [List.length_take, List.length_drop]
    omega
  rw [hblen]
  simp [List.take_take]

/-- Cache-hit path of SeekingS3.ReadAt (src/unnamed/part_000 lines 72-81):
when the code's hit condition holds, the requested slice of the cached
window is returned with nil error, no request, and no state change. -/
theorem SeekingS3.ReadAt_hit (bk : FuncBackend) (st : SeekingS3) (blen : Nat)
    (off : Int) (c : List Nat)
    (hsz : st.size > -1) (hlt : off < st.size) (hc : st.last = some c)
    (h1 : st.lastOffset < off)
    (h2 : off + (blen : Int) < st.lastOffset + (c.length : Int)) :
    SeekingS3.ReadAt bk st blen off =
      ⟨(blen : Int), (c.drop (off - st.lastOffset).toNat).take blen, none,
        st, []⟩ := by
  unfold SeekingS3.ReadAt
  rw [SeekingS3.Size_fast_path _ _ hsz]
  simp only
  rw [if_neg (by omega : ¬ off ≥ st.size), hc]
  simp only
  rw [if_pos ⟨h1, h2⟩]

/-- Cache-miss path of SeekingS3.ReadAt with a successful fetch
(src/unnamed/part_000 lines 94-145): bytesToRead is clamped to size - off,
one GetObject for fmtRange off bytesToRead is issued, the cache is replaced
wholesale by the response body at offset off, min(len(buf), len(body))
bytes are copied out, and bytesToRead is returned with nil error. -/
theorem SeekingS3.ReadAt_miss (bk : FuncBackend) (st : SeekingS3) (blen : Nat)
    (off btr : Int) (body : List Nat)
    (hsz : st.size > -1) (hlt : off < st.size) (hmiss : ¬ hitAt st blen off)
    (hbtr : btr = if off + (blen : Int) > st.size then st.size - off
                  else (blen : Int))
    (hget : bk.get (fmtRange off btr).1 (fmtRange off btr).2 = some body) :
    SeekingS3.ReadAt bk st blen off =
      ⟨btr, body.take blen, none,
        { st with last := some body, lastOffset := off },
        [.getReq (fmtRange off btr).1 (fmtRange off btr).2]⟩ := by
  unfold SeekingS3.ReadAt
  rw [SeekingS3.Size_fast_path _ _ hsz]
  simp only
  rw [if_neg (by omega : ¬ off ≥ st.size)]
  have hhit : (match st.last with
      | some c =>
        if st.lastOffset < off ∧
            off + (blen : Int) < st.lastOffset + (c.length : Int) then
          some ((c.drop (off - st.lastOffset).toNat).take blen)
        else none
      | none => none) = (none : Option (List Nat)) := by
    cases hl : st.last with
    | none => rfl
    | some c =>
      simp only
      rw [if_neg]
      intro hcond
      exact hmiss ⟨c, hl, hcond.1, hcond.2⟩
  rw [hhit]
  simp only
  rw [← hbtr, hget]
  simp

/-- In-bounds read on SeekingS3 over a well-behaved backend: with the size
resolved, a valid cache, and [off, off+blen) inside the object, ReadAt
returns the requested slice with nil error, whether it is served from the
cache or by a fresh fetch. -/
theorem SeekingS3.ReadAt_within_object (object : List Nat) (st : SeekingS3)
    (blen : Nat) (off : Int) (hoff : 0 ≤ off) (hlen : 0 < blen)
    (hend : off + (blen : Int) ≤ (object.length : Int))
    (hsz : st.size = (object.length : Int)) (hcv : cacheValid object st) :
    (SeekingS3.ReadAt (objBackend object) st blen off).n = (blen : Int) ∧
    (SeekingS3.ReadAt (objBackend object) st blen off).data =
      (object.drop off.toNat).take blen ∧
    (SeekingS3.ReadAt (objBackend object) st blen off).err = none := by
  have hsz' : st.size > -1 := by omega
  have hlt : off < st.size := by omega
  by_cases hh : hitAt st blen off
  · obtain ⟨c, hc, h1, h2⟩ := hh
    obtain ⟨hL0, hLend, hceq⟩ := hcv c hc
    rw [SeekingS3.ReadAt_hit (objBackend object) st blen off c hsz' hlt hc h1 h2]
    refine ⟨rfl, ?_, rfl⟩
    conv_lhs => rw [hceq]
    rw [take_drop_take object st.lastOffset.toNat c.length
      (off - st.lastOffset).toNat blen (by omega)]
    have harg : st.lastOffset.toNat + (off - st.lastOffset).toNat = off.toNat := by
      omega
    rw [harg]
  · have hbtr : (blen : Int) =
        if off + (blen : Int) > st.size then st.size - off else (blen : Int) := by
      rw [if_neg (by omega : ¬ off + (blen : Int) > st.size)]
    have e1 : fmtRange off (blen : Int) = (off, off + ((blen : Int) - 1)) := by
      unfold fmtRange
      rw [if_neg (by omega : ¬ (blen : Int) = 0)]
    have hget : (objBackend object).get (fmtRange off (blen : Int)).1
        (fmtRange off (blen : Int)).2 = some ((object.drop off.toNat).take blen) := by
      rw [e1]
      simp only [objBackend]
      have e2 : ((off + ((blen : Int) - 1)) - off + 1).toNat = blen := by omega
      rw [e2]
    rw [SeekingS3.ReadAt_miss (objBackend object) st blen off (blen : Int) _
      hsz' hlt hh hbtr hget]
    refine ⟨rfl, ?_, rfl⟩
    simp [List.take_take]

/-- Clamped read on S3ReaderAt over a well-behaved backend (src/s3readerat.go
lines 161-172 and 190-206): when off < size < off + plen, the range is
clamped to [off, size-1], one fetch returns the object tail, and the read
reports the tail together with io.EOF. -/
theorem S3ReaderAt.ReadAt_clamped (object : List Nat) (st : S3ReaderAt)
    (plen : Nat) (off : Int) (hoff : 0 ≤ off)
    (hlt : off < (object.length : Int))
    (hover : (object.length : Int) < off + (plen : Int))
    (hsz : st.size = (object.length : Int)) :
    S3ReaderAt.ReadAt (objBackend object) st plen off =
      ⟨(object.length : Int) - off, object.drop off.toNat, some .eof, st,
        [.getReq off ((object.length : Int) - 1)]⟩ := by
  have h0 : 0 ≤ st.size := by omega
  have hplen : ¬ plen = 0 := by omega
  unfold S3ReaderAt.ReadAt
  rw [if_neg hplen, S3ReaderAt.Size_cached _ _ h0]
  simp only
  rw [if_pos ⟨by omega, by omega⟩, if_neg (by omega : ¬ st.size - 1 < off), hsz]
  simp only [objBackend]
  have e2 : (((object.length : Int) - 1) - off + 1).toNat
      = object.length - off.toNat := by omega
  rw [e2]
  have hbody : (object.drop off.toNat).take (object.length - off.toNat)
      = object.drop off.toNat := by
    apply List.take_of_length_le
    simp
  rw [hbody]
  simp only [readFullStep]
  have hlen2 : (object.drop off.toNat).length = object.length - off.toNat := by
    simp
  rw [hlen2, hbody]
  have e3 : ((min (object.length - off.toNat) (object.length - off.toNat) : Nat)
      : Int) = (object.length : Int) - off := by omega
  have e4 : ¬ object.length - off.toNat < object.length - off.toNat := by omega
  rw [if_neg e4]
  simp only [RAResult.mk.injEq]
  refine ⟨by omega, trivial, trivial, trivial, by simp⟩

/-- Clamped (tail) read on SeekingS3 over a well-behaved backend
(src/unnamed/part_000 lines 94-145): when off < size < off + blen there is
no cache hit, bytesToRead is clamped to size - off, one fetch returns the
object tail, the cache is replaced by that tail at offset off, and the read
returns count size - off with nil error. -/
theorem SeekingS3.ReadAt_tail (object : List Nat) (st : SeekingS3)
    (blen : Nat) (off : Int) (hoff : 0 ≤ off)
    (hlt : off < (object.length : Int))
    (hover : (object.length : Int) < off + (blen : Int))
    (hsz : st.size = (object.length : Int)) (hcv : cacheValid object st) :
    SeekingS3.ReadAt (objBackend object) st blen off =
      ⟨(object.length : Int) - off, object.drop off.toNat, none,
        { st with last := some (object.drop off.toNat), lastOffset := off },
        [.getReq off ((object.length : Int) - 1)]⟩ := by
  have hsz' : st.size > -1 := by omega
  have hmiss : ¬ hitAt st blen off := by
    rintro ⟨c, hc, h1, h2⟩
    obtain ⟨hL0, hLend, _⟩ := hcv c hc
    omega
  have hbtr : (object.length : Int) - off =
      if off + (blen : Int) > st.size then st.size - off else (blen : Int) := by
    rw [if_pos (by omega : off + (blen : Int) > st.size)]
    omega
  have e1 : fmtRange off ((object.length : Int) - off)
      = (off, (object.length : Int) - 1) := by
    unfold fmtRange
    rw [if_neg (by omega : ¬ (object.length : Int) - off = 0)]
    have e0 : off + ((object.length : Int) - off - 1)
        = (object.length : Int) - 1 := by ring
    rw [e0]
  have hbody : (objBackend object).get
      (fmtRange off ((object.length : Int) - off)).1
      (fmtRange off ((object.length : Int) - off)).2
      = some (object.drop off.toNat) := by
    rw [e1]
    simp only [objBackend]
    have e2 : (((object.length : Int) - 1) - off + 1).toNat
        = object.length - off.toNat := by omega
    rw [e2]
    congr 1
    apply List.take_of_length_le
    simp
  rw [SeekingS3.ReadAt_miss (objBackend object) st blen off
    ((object.length : Int) - off) (object.drop off.toNat) hsz' (by omega)
    hmiss hbtr hbody, e1]
  have hd : (object.drop off.toNat).take blen = object.drop off.toNat := by
    apply List.take_of_length_le
    simp only [List.length_drop]
    omega
  rw [hd]

/-! Claim theorems. -/

/-- Claim C1: for every object of known size and every request (offset,
length) with offset ≥ 0, length > 0 and offset + length ≤ size, a
positional ReadAt on either reader (S3ReaderAt.ReadAt, SeekingS3.ReadAt)
returns exactly `length` bytes equal to the slice [offset, offset+length)
of the remote object, with nil error. -/
theorem C1_valid_read_exact (object : List Nat) (st : S3ReaderAt)
    (ss : SeekingS3) (plen : Nat) (off : Int)
    (hoff : 0 ≤ off) (hlen : 0 < plen)
    (hend : off + (plen : Int) ≤ (object.length : Int))
    (hsz : st.size = (object.length : Int))
    (hsz2 : ss.size = (object.length : Int)) (hcv : cacheValid object ss) :
    ((S3ReaderAt.ReadAt (objBackend object) st plen off).n = (plen : Int) ∧
     (S3ReaderAt.ReadAt (objBackend object) st plen off).data =
       (object.drop off.toNat).take plen ∧
     (S3ReaderAt.ReadAt (objBackend object) st plen off).err = none) ∧
    ((SeekingS3.ReadAt (objBackend object) ss plen off).n = (plen : Int) ∧
     (SeekingS3.ReadAt (objBackend object) ss plen off).data =
       (object.drop off.toNat).take plen ∧
     (SeekingS3.ReadAt (objBackend object) ss plen off).err = none) := by
  constructor
  · rw [S3ReaderAt.ReadAt_in_bounds object st plen off hoff hlen hend hsz]
    exact ⟨rfl, rfl, rfl⟩
  · exact SeekingS3.ReadAt_within_object object ss plen off hoff hlen hend hsz2 hcv

/-- Witness for C1 at a concrete input: reading 2 bytes at offset 1 of the
5-byte object [3,1,4,1,5] yields [1,4] with nil error on both readers. -/
theorem C1_valid_read_exact_witness :
    (S3ReaderAt.ReadAt (objBackend [3, 1, 4, 1, 5]) ⟨5, none, none⟩ 2 1).data
      = [1, 4] ∧
    (S3ReaderAt.ReadAt (objBackend [3, 1, 4, 1, 5]) ⟨5, none, none⟩ 2 1).err
      = none ∧
    (SeekingS3.ReadAt (objBackend [3, 1, 4, 1, 5]) ⟨0, none, 0, 5⟩ 2 1).data
      = [1, 4] ∧
    (SeekingS3.ReadAt (objBackend [3, 1, 4, 1, 5]) ⟨0, none, 0, 5⟩ 2 1).err
      = none := by
  have h := C1_valid_read_exact [3, 1, 4, 1, 5] ⟨5, none, none⟩ ⟨0, none, 0, 5⟩
    2 1 (by decide) (by decide) (by decide) rfl rfl (fun c hc => nomatch hc)
  exact ⟨h.1.2.1.trans (by decide), h.1.2.2, h.2.2.1.trans (by decide), h.2.2.2⟩

/-- Claim C2 counterexample: on the 4-byte object [1,2,3,4], the
cache-backed reader SeekingS3.ReadAt at offset 2 with a 4-byte buffer
(offset < size < offset + length) returns count 2 = size - offset but a
nil error, not the EndOfData status the claim asserts for every positional
readAt. -/
theorem C2_counterexample_seeking_nil_status :
    (SeekingS3.ReadAt (objBackend [1, 2, 3, 4]) ⟨0, none, 0, 4⟩ 4 2).n = 2 ∧
    (SeekingS3.ReadAt (objBackend [1, 2, 3, 4]) ⟨0, none, 0, 4⟩ 4 2).err
      = none := by
  decide

/-- Claim C2 as amended: for offset < size < offset + length (size
resolved, cache valid), S3ReaderAt.ReadAt returns exactly size - offset
bytes (the object tail) with status io.EOF — EndOfData even though every
requested-and-clamped byte was copied — while SeekingS3.ReadAt returns the
same count size - offset and the same tail bytes but with nil (success)
status instead of EndOfData. -/
theorem C2_amended_tail_read (object : List Nat) (st : S3ReaderAt)
    (ss : SeekingS3) (plen : Nat) (off : Int)
    (hoff : 0 ≤ off) (hlt : off < (object.length : Int))
    (hover : (object.length : Int) < off + (plen : Int))
    (hsz : st.size = (object.length : Int))
    (hsz2 : ss.size = (object.length : Int)) (hcv : cacheValid object ss) :
    ((S3ReaderAt.ReadAt (objBackend object) st plen off).n
        = (object.length : Int) - off ∧
     (S3ReaderAt.ReadAt (objBackend object) st plen off).data
        = object.drop off.toNat ∧
     (S3ReaderAt.ReadAt (objBackend object) st plen off).err
        = some IOErr.eof) ∧
    ((SeekingS3.ReadAt (objBackend object) ss plen off).n
        = (object.length : Int) - off ∧
     (SeekingS3.ReadAt (objBackend object) ss plen off).data
        = object.drop off.toNat ∧
     (SeekingS3.ReadAt (objBackend object) ss plen off).err = none) := by
  constructor
  · rw [S3ReaderAt.ReadAt_clamped object st plen off hoff hlt hover hsz]
    exact ⟨rfl, rfl, rfl⟩
  · rw [SeekingS3.ReadAt_tail object ss plen off hoff hlt hover hsz2 hcv]
    exact ⟨rfl, rfl, rfl⟩

/-- Witness for the amended C2 at a concrete input: reading 4 bytes at
offset 2 of [1,2,3,4] returns the 2-byte tail [3,4]; with io.EOF on
S3ReaderAt and nil error on SeekingS3. -/
theorem C2_amended_tail_read_witness :
    (S3ReaderAt.ReadAt (objBackend [1, 2, 3, 4]) ⟨4, none, none⟩ 4 2).n = 2 ∧
    (S3ReaderAt.ReadAt (objBackend [1, 2, 3, 4]) ⟨4, none, none⟩ 4 2).data
      = [3, 4] ∧
    (S3ReaderAt.ReadAt (objBackend [1, 2, 3, 4]) ⟨4, none, none⟩ 4 2).err
      = some IOErr.eof ∧
    (SeekingS3.ReadAt (objBackend [1, 2, 3, 4]) ⟨0, none, 0, 4⟩ 4 2).data
      = [3, 4] := by
  have h := C2_amended_tail_read [1, 2, 3, 4] ⟨4, none, none⟩ ⟨0, none, 0, 4⟩
    4 2 (by decide) (by decide) (by decide) rfl rfl (fun c hc => nomatch hc)
  exact ⟨h.1.1.trans (by decide), h.1.2.1.trans (by decide), h.1.2.2,
    h.2.2.1.trans (by decide)⟩

/-- Claim C3: with the object size resolved, a positive-length read at an
offset at or beyond the size returns 0 bytes and EndOfData (io.EOF) on both
readers, issuing no request at all — in particular no range fetch
(src/s3readerat.go lines 162-172, src/unnamed/part_000 lines 68-70). -/
theorem C3_offset_beyond_size (bk bk2 : FuncBackend) (st : S3ReaderAt)
    (ss : SeekingS3) (plen blen : Nat) (off off2 : Int)
    (hlen : 0 < plen) (hsz : 0 ≤ st.size) (hbeyond : st.size ≤ off)
    (_hblen : 0 < blen) (hsz2 : ss.size > -1) (hbeyond2 : ss.size ≤ off2) :
    S3ReaderAt.ReadAt bk st plen off = ⟨0, [], some .eof, st, []⟩ ∧
    SeekingS3.ReadAt bk2 ss blen off2 = ⟨0, [], some .eof, ss, []⟩ := by
  constructor
  · unfold S3ReaderAt.ReadAt
    rw [if_neg (by omega : ¬ plen = 0), S3ReaderAt.Size_cached _ _ hsz]
    simp only
    rw [if_pos ⟨by omega, by omega⟩, if_pos (by omega : st.size - 1 < off)]
  · unfold SeekingS3.ReadAt
    rw [SeekingS3.Size_fast_path _ _ hsz2]
    simp only
    rw [if_pos (by omega : off2 ≥ ss.size)]

/-- Witness for C3 at a concrete input: a 3-byte read at offset 7 of a
reader whose resolved size is 5 returns (0, io.EOF) with no requests, on
both readers. -/
theorem C3_offset_beyond_size_witness :
    S3ReaderAt.ReadAt (objBackend [1, 2, 3, 4, 5]) ⟨5, none, none⟩ 3 7
      = ⟨0, [], some .eof, ⟨5, none, none⟩, []⟩ ∧
    SeekingS3.ReadAt (objBackend [1, 2, 3, 4, 5]) ⟨0, none, 0, 5⟩ 3 7
      = ⟨0, [], some .eof, ⟨0, none, 0, 5⟩, []⟩ :=
  C3_offset_beyond_size (objBackend [1, 2, 3, 4, 5])
    (objBackend [1, 2, 3, 4, 5]) ⟨5, none, none⟩ ⟨0, none, 0, 5⟩ 3 3 7 7
    (by decide) (by decide) (by decide) (by decide) (by decide) (by decide)


/-- SeekingS3.ReadAt always reports a byte count of 0 for a zero-length
buffer: on a hit the returned count is len(buf) = 0, on a miss bytesToRead
is clamped to 0 (src/unnamed/part_000 lines 94-97), and every error path
returns 0. -/
theorem SeekingS3.ReadAt_zero_n (bk : FuncBackend) (ss : SeekingS3)
    (off : Int) : (SeekingS3.ReadAt bk ss 0 off).n = 0 := by
  unfold SeekingS3.ReadAt
  split
  · rfl
  · next size st1 reqs heq =>
    split
    · rfl
    · next hlt =>
      rcases hl : st1.last with _ | c
      · simp only [hl]
        split
        · rfl
        · next body hget =>
          simp only
          rw [if_neg (by omega : ¬ off + ((0 : Nat) : Int) > size)]
          simp
      · simp only [hl]
        split
        · simp
        · split
          · rfl
          · next body hget =>
            simp only
            rw [if_neg (by omega : ¬ off + ((0 : Nat) : Int) > size)]
            simp

/-- Claim C4 counterexample: SeekingS3.ReadAt does not special-case a
zero-length buffer (src/unnamed/part_000 has no len(buf) == 0 check, and
fmtRange 0 formats a one-byte range, lines 46-52).  With the size 4 already
resolved: at offset 4 a zero-length read returns io.EOF rather than the
success status the claim asserts for every offset, and at offset 0 it
issues a GetObject range request (for "bytes=0-0") although the claim says
no network request of any kind is issued. -/
theorem C4_counterexample_seeking_zero_len :
    (SeekingS3.ReadAt (objBackend [7, 7, 7, 7]) ⟨0, none, 0, 4⟩ 0 4).err
      = some IOErr.eof ∧
    (SeekingS3.ReadAt (objBackend [7, 7, 7, 7]) ⟨0, none, 0, 4⟩ 0 0).reqs
      = [Req.getReq 0 0] := by
  decide

/-- Claim C4 as amended: S3ReaderAt.ReadAt with a zero-length buffer
returns 0 bytes, nil error and issues no request of any kind, for every
offset and every backend (src/s3readerat.go lines 149-151).  SeekingS3 has
no zero-length fast path: the returned count is still always 0, but with
the size resolved a zero-length read at offset ≥ size returns io.EOF (and
no request), while at offset < size on a cache miss it issues one GetObject
range request for the one-byte range [off, off]. -/
theorem C4_amended_zero_length :
    (∀ (bk : FuncBackend) (st : S3ReaderAt) (off : Int),
      S3ReaderAt.ReadAt bk st 0 off = ⟨0, [], none, st, []⟩) ∧
    (∀ (bk : FuncBackend) (ss : SeekingS3) (off : Int),
      (SeekingS3.ReadAt bk ss 0 off).n = 0) ∧
    (∀ (bk : FuncBackend) (ss : SeekingS3) (off : Int),
      ss.size > -1 → ss.size ≤ off →
      SeekingS3.ReadAt bk ss 0 off = ⟨0, [], some .eof, ss, []⟩) ∧
    (∀ (bk : FuncBackend) (ss : SeekingS3) (off : Int),
      ss.size > -1 → off < ss.size → ¬ hitAt ss 0 off →
      (SeekingS3.ReadAt bk ss 0 off).reqs = [Req.getReq off off]) := by
  refine ⟨?_, ?_, ?_, ?_⟩
  · intro bk st off
    unfold S3ReaderAt.ReadAt
    rw [if_pos rfl]
  · exact SeekingS3.ReadAt_zero_n
  · intro bk ss off hsz hb
    unfold SeekingS3.ReadAt
    rw [SeekingS3.Size_fast_path _ _ hsz]
    simp only
    rw [if_pos (by omega : off ≥ ss.size)]
  · intro bk ss off hsz hlt hmiss
    have hrng : fmtRange off (if off + ((0 : Nat) : Int) > ss.size
        then ss.size - off else ((0 : Nat) : Int)) = (off, off) := by
      rw [if_neg (by omega : ¬ off + ((0 : Nat) : Int) > ss.size)]
      unfold fmtRange
      rw [if_pos (by simp : ((0 : Nat) : Int) = 0)]
    unfold SeekingS3.ReadAt
    rw [SeekingS3.Size_fast_path _ _ hsz]
    simp only
    rw [if_neg (by omega : ¬ off ≥ ss.size)]
    have hhit : (match ss.last with
        | some c =>
          if ss.lastOffset < off ∧
              off + ((0 : Nat) : Int) < ss.lastOffset + (c.length : Int) then
            some ((c.drop (off - ss.lastOffset).toNat).take 0)
          else none
        | none => none) = (none : Option (List Nat)) := by
      cases hl : ss.last with
      | none => rfl
      | some c =>
        simp only
        rw [if_neg]
        intro hcond
        exact hmiss ⟨c, hl, hcond.1, hcond.2⟩
    rw [hhit]
    simp only
    rw [hrng]
    cases hg : bk.get off off <;> simp

/-- Witness for the amended C4 at concrete inputs: a zero-length
S3ReaderAt read at offset 9 is a pure no-op; a zero-length SeekingS3 read
at offset 9 ≥ size 4 returns io.EOF with no request; a zero-length
SeekingS3 read at offset 2 < size 4 with an empty cache issues the one-byte
range request [2, 2]. -/
theorem C4_amended_zero_length_witness :
    S3ReaderAt.ReadAt (objBackend [7, 7, 7, 7]) ⟨4, none, none⟩ 0 9
      = ⟨0, [], none, ⟨4, none, none⟩, []⟩ ∧
    SeekingS3.ReadAt (objBackend [7, 7, 7, 7]) ⟨0, none, 0, 4⟩ 0 9
      = ⟨0, [], some .eof, ⟨0, none, 0, 4⟩, []⟩ ∧
    (SeekingS3.ReadAt (objBackend [7, 7, 7, 7]) ⟨0, none, 0, 4⟩ 0 2).reqs
      = [Req.getReq 2 2] :=
  ⟨C4_amended_zero_length.1 (objBackend [7, 7, 7, 7]) ⟨4, none, none⟩ 9,
   C4_amended_zero_length.2.2.1 (objBackend [7, 7, 7, 7]) ⟨0, none, 0, 4⟩ 9
     (by decide) (by decide),
   C4_amended_zero_length.2.2.2 (objBackend [7, 7, 7, 7]) ⟨0, none, 0, 4⟩ 2
     (by decide) (by decide) (by decide)⟩

/-- Unclamped fetch path of S3ReaderAt.ReadAt with an arbitrary response
body: when the requested range already ends before the object end, one
fetch for [off, off+plen-1] is issued and the ReadFull outcome is returned:
min(len body, plen) bytes, io.EOF exactly when the body is short. -/
theorem S3ReaderAt.ReadAt_fetch (bk : FuncBackend) (st : S3ReaderAt)
    (plen : Nat) (off : Int) (body : List Nat)
    (hlen : 0 < plen) (hsz : 0 ≤ st.size)
    (hnc : off + (plen : Int) - 1 ≤ st.size - 1)
    (hget : bk.get off (off + (plen : Int) - 1) = some body) :
    S3ReaderAt.ReadAt bk st plen off =
      ⟨((min body.length plen : Nat) : Int), body.take plen,
        (if body.length < plen then some IOErr.eof else none), st,
        [.getReq off (off + (plen : Int) - 1)]⟩ := by
  unfold S3ReaderAt.ReadAt
  rw [if_neg (by omega : ¬ plen = 0), S3ReaderAt.Size_cached _ _ hsz]
  simp only
  rw [if_neg (by omega : ¬ (st.size ≠ -1 ∧ st.size - 1 < off + (plen : Int) - 1)),
    hget]
  simp [readFullStep]

/-- Clamped fetch path of S3ReaderAt.ReadAt with an arbitrary response
body: when off ≤ size - 1 < off + plen - 1, one fetch for [off, size-1] is
issued, the buffer is shrunk to (size-1) - off + 1 bytes, and the returned
status is io.EOF both when the body is short (ReadFull's ErrUnexpectedEOF
converted on line 193) and when it is full (the pending clamp status of
lines 161-172, 202-204). -/
theorem S3ReaderAt.ReadAt_fetch_clamped (bk : FuncBackend) (st : S3ReaderAt)
    (plen : Nat) (off : Int) (body : List Nat)
    (hlen : 0 < plen) (hsz : 0 ≤ st.size)
    (hcl : st.size - 1 < off + (plen : Int) - 1) (hoffle : off ≤ st.size - 1)
    (hget : bk.get off (st.size - 1) = some body) :
    S3ReaderAt.ReadAt bk st plen off =
      ⟨((min body.length (st.size - 1 - off + 1).toNat : Nat) : Int),
        body.take (st.size - 1 - off + 1).toNat, some IOErr.eof, st,
        [.getReq off (st.size - 1)]⟩ := by
  unfold S3ReaderAt.ReadAt
  rw [if_neg (by omega : ¬ plen = 0), S3ReaderAt.Size_cached _ _ hsz]
  simp only
  rw [if_pos ⟨by omega, hcl⟩, if_neg (by omega : ¬ st.size - 1 < off), hget]
  simp only [readFullStep]
  split <;> simp

/-- Claim C9 counterexample: with object size 100 resolved, a 10-byte read
at offset 0 whose successful fetch delivers a truncated 5-byte body is
reported as (5, io.EOF) by S3ReaderAt.ReadAt — the EndOfData sentinel —
although the short read ends at absolute offset 5, far before the object
end at 100.  The claim requires a transport error distinct from EndOfData
here, but line 193 of src/s3readerat.go converts io.ErrUnexpectedEOF to
io.EOF unconditionally. -/
theorem C9_counterexample_truncation_reported_eof :
    (S3ReaderAt.ReadAt ⟨some 100, fun _ _ => some [1, 2, 3, 4, 5]⟩
        ⟨100, none, none⟩ 10 0).err = some IOErr.eof ∧
    (S3ReaderAt.ReadAt ⟨some 100, fun _ _ => some [1, 2, 3, 4, 5]⟩
        ⟨100, none, none⟩ 10 0).n = 5 ∧
    (0 : Int) + 5 < (100 : Int) := by
  decide

/-- Claim C9 as amended: whenever a successful range fetch returns a body
that ends before the expected (clamped) length, S3ReaderAt.ReadAt reports
io.EOF (EndOfData) together with the body length as count — regardless of
whether the short read coincides with the end of the object — because the
io.ErrUnexpectedEOF produced by io.ReadFull for a body that ends early is
unconditionally converted to io.EOF (src/s3readerat.go line 193).  Only a
body-read failure other than end-of-body would surface as a distinct
error. -/
theorem C9_amended_short_body_is_eof (bk : FuncBackend) (st : S3ReaderAt)
    (plen : Nat) (off : Int) (body : List Nat)
    (hlen : 0 < plen) (hsz : 0 ≤ st.size) (_hoffpos : 0 ≤ off)
    (hlt : off < st.size)
    (hget : ∀ a b, bk.get a b = some body)
    (hshort : (body.length : Int) <
      min (off + (plen : Int) - 1) (st.size - 1) - off + 1) :
    (S3ReaderAt.ReadAt bk st plen off).err = some IOErr.eof ∧
    (S3ReaderAt.ReadAt bk st plen off).n = (body.length : Int) := by
  by_cases hcl : st.size - 1 < off + (plen : Int) - 1
  · rw [S3ReaderAt.ReadAt_fetch_clamped bk st plen off body hlen hsz hcl
      (by omega) (hget _ _)]
    refine ⟨rfl, ?_⟩
    simp only
    omega
  · have hb : body.length < plen := by omega
    rw [S3ReaderAt.ReadAt_fetch bk st plen off body hlen hsz (by omega)
      (hget _ _)]
    refine ⟨by simp [hb], by simp only; omega⟩

/-- Witness for the amended C9 at a concrete input: a 4-byte read at
offset 0 of a size-100 object whose fetch returns only 2 bytes yields
(2, io.EOF). -/
theorem C9_amended_short_body_is_eof_witness :
    (S3ReaderAt.ReadAt ⟨some 100, fun _ _ => some [1, 2]⟩
        ⟨100, none, none⟩ 4 0).err = some IOErr.eof ∧
    (S3ReaderAt.ReadAt ⟨some 100, fun _ _ => some [1, 2]⟩
        ⟨100, none, none⟩ 4 0).n = 2 :=
  C9_amended_short_body_is_eof ⟨some 100, fun _ _ => some [1, 2]⟩
    ⟨100, none, none⟩ 4 0 [1, 2] (by decide) (by decide) (by decide)
    (by decide) (fun a b => rfl) (by decide)

/-- Claim C10: on every cache-miss SeekingS3.ReadAt whose fetch succeeds,
the returned count equals min(requested length, size - offset), computed
from the resolved size alone (bytesToRead, src/unnamed/part_000 lines 94-97
and the return on line 145) — even when the response body holds fewer
bytes, in which case only the body's bytes were copied into the caller's
buffer (the returned data below), yet the count is unchanged. -/
theorem C10_miss_count_from_size_alone (bk : FuncBackend) (ss : SeekingS3)
    (blen : Nat) (off : Int) (body : List Nat)
    (hsz : ss.size > -1) (_hoff : 0 ≤ off) (hlt : off < ss.size)
    (hmiss : ¬ hitAt ss blen off)
    (hget : ∀ a b, bk.get a b = some body) :
    (SeekingS3.ReadAt bk ss blen off).n = min (blen : Int) (ss.size - off) ∧
    (SeekingS3.ReadAt bk ss blen off).data = body.take blen ∧
    (SeekingS3.ReadAt bk ss blen off).err = none := by
  set btr := if off + (blen : Int) > ss.size then ss.size - off
    else (blen : Int) with hbtr
  rw [SeekingS3.ReadAt_miss bk ss blen off btr body hsz hlt hmiss hbtr
    (hget _ _)]
  refine ⟨?_, rfl, rfl⟩
  simp only
  rw [hbtr]
  split <;> omega

/-- Witness for C10 at a concrete input: a 5-byte cache-miss read at
offset 0 of a reader with resolved size 10 whose fetch returns only the
2-byte body [1,2] still reports count 5 = min(5, 10 - 0), while only
[1,2] was copied into the buffer. -/
theorem C10_miss_count_from_size_alone_witness :
    (SeekingS3.ReadAt ⟨some 10, fun _ _ => some [1, 2]⟩
        ⟨0, none, 0, 10⟩ 5 0).n = 5 ∧
    (SeekingS3.ReadAt ⟨some 10, fun _ _ => some [1, 2]⟩
        ⟨0, none, 0, 10⟩ 5 0).data = [1, 2] ∧
    (SeekingS3.ReadAt ⟨some 10, fun _ _ => some [1, 2]⟩
        ⟨0, none, 0, 10⟩ 5 0).err = none := by
  have h := C10_miss_count_from_size_alone ⟨some 10, fun _ _ => some [1, 2]⟩
    ⟨0, none, 0, 10⟩ 5 0 [1, 2] (by decide) (by decide) (by decide)
    (by decide) (fun a b => rfl)
  exact ⟨h.1.trans (by decide), h.2.1.trans (by decide), h.2.2⟩

/-- Cache hit on SeekingS3 with a valid cache serves exactly the object
bytes [off, off+blen) from memory: no request, no state change. -/
theorem SeekingS3.ReadAt_hit_data (object : List Nat) (ss : SeekingS3)
    (blen : Nat) (off : Int) (c : List Nat)
    (hsz : ss.size = (object.length : Int)) (hcv : cacheValid object ss)
    (hc : ss.last = some c) (h1 : ss.lastOffset < off)
    (h2 : off + (blen : Int) < ss.lastOffset + (c.length : Int)) :
    SeekingS3.ReadAt (objBackend object) ss blen off =
      ⟨(blen : Int), (object.drop off.toNat).take blen, none, ss, []⟩ := by
  obtain ⟨hL0, hLend, hceq⟩ := hcv c hc
  have hlt : off < ss.size := by omega
  rw [SeekingS3.ReadAt_hit (objBackend object) ss blen off c (by omega) hlt
    hc h1 h2]
  have hdata : (c.drop (off - ss.lastOffset).toNat).take blen
      = (object.drop off.toNat).take blen := by
    conv_lhs => rw [hceq]
    rw [take_drop_take object ss.lastOffset.toNat c.length
      (off - ss.lastOffset).toNat blen (by omega)]
    have harg : ss.lastOffset.toNat + (off - ss.lastOffset).toNat
        = off.toNat := by omega
    rw [harg]
  rw [hdata]

/-- Range fetched by a SeekingS3 cache miss (src/unnamed/part_000 lines
94-101): bytesToRead clamped to size - off, formatted by fmtRange. -/
def missFetchRange (size off : Int) (blen : Nat) : Int × Int :=
  fmtRange off (if off + (blen : Int) > size then size - off else (blen : Int))

/-- Fresh fetch of the window [off, off + blen) from a well-behaved
backend: the slice of the object starting at off, of length blen. -/
theorem objBackend_get_window (object : List Nat) (off : Int) (blen : Nat) :
    (objBackend object).get off (off + (blen : Int) - 1)
      = some ((object.drop off.toNat).take blen) := by
  simp only [objBackend]
  have e : ((off + (blen : Int) - 1) - off + 1).toNat = blen := by omega
  rw [e]

/-- Claim C6 counterexample: the reader holds the cached window [0, 4)
(bytes [10,20,30,40] of the size-8 object at lastOffset 0).  The read
(off = 1, len = 3) is fully contained in that window in the claim's sense —
the offset 1 lies within the window's span starting at 0, and 1 + 3 = 4
does not exceed the window end 4 — yet SeekingS3.ReadAt issues a network
fetch, because the code's hit test (src/unnamed/part_000 lines 72-74)
requires off+len to be strictly below the window end. -/
theorem C6_counterexample_contained_read_fetches :
    (⟨0, some [10, 20, 30, 40], 0, 8⟩ : SeekingS3).lastOffset ≤ 1 ∧
    (1 : Int) + 3 ≤ (⟨0, some [10, 20, 30, 40], 0, 8⟩ : SeekingS3).lastOffset
      + 4 ∧
    (SeekingS3.ReadAt (objBackend [10, 20, 30, 40, 50, 60, 70, 80])
        ⟨0, some [10, 20, 30, 40], 0, 8⟩ 3 1).reqs.length = 1 := by
  decide

/-- Claim C6 as amended: the cache-hit condition of SeekingS3 is strict at
both ends — the requested offset must be strictly greater than the cached
window's start and offset+length strictly less than the window's end.
Under that condition the read is served from the cached bytes with zero
network requests, without state change, and its output is byte-identical
to a fresh fetch of the same window; a read failing the condition (with
offset below the resolved size) triggers exactly one fetch, for
missFetchRange, whose body fully replaces the cache at offset off. -/
theorem C6_amended_last_range_cache (object : List Nat) (ss : SeekingS3)
    (blen : Nat) (off : Int) (hsz : ss.size = (object.length : Int)) :
    (∀ c, cacheValid object ss → ss.last = some c → ss.lastOffset < off →
      off + (blen : Int) < ss.lastOffset + (c.length : Int) →
      SeekingS3.ReadAt (objBackend object) ss blen off
        = ⟨(blen : Int), (object.drop off.toNat).take blen, none, ss, []⟩ ∧
      (objBackend object).get off (off + (blen : Int) - 1)
        = some (SeekingS3.ReadAt (objBackend object) ss blen off).data) ∧
    (0 ≤ off → off < ss.size → ¬ hitAt ss blen off →
      (SeekingS3.ReadAt (objBackend object) ss blen off).reqs
        = [Req.getReq (missFetchRange ss.size off blen).1
            (missFetchRange ss.size off blen).2] ∧
      (SeekingS3.ReadAt (objBackend object) ss blen off).st.last
        = (objBackend object).get (missFetchRange ss.size off blen).1
            (missFetchRange ss.size off blen).2 ∧
      (SeekingS3.ReadAt (objBackend object) ss blen off).st.lastOffset
        = off) := by
  constructor
  · intro c hcv hc h1 h2
    rw [SeekingS3.ReadAt_hit_data object ss blen off c hsz hcv hc h1 h2]
    exact ⟨rfl, objBackend_get_window object off blen⟩
  · intro hoff hlt hmiss
    simp only [missFetchRange]
    set btr := if off + (blen : Int) > ss.size then ss.size - off
      else (blen : Int) with hbtr
    rw [SeekingS3.ReadAt_miss (objBackend object) ss blen off btr _
      (by omega) hlt hmiss hbtr rfl]
    exact ⟨rfl, rfl, rfl⟩

/-- Witness for the amended C6 at concrete inputs: with the cached window
[0, 4) of the object [10,...,80] (size 8), the read (off = 1, len = 2)
satisfies the strict hit condition and is served from cache as [20,30]
with no requests; the read (off = 4, len = 2) misses, fetches exactly
[4, 5], and replaces the cache with [50,60] at offset 4. -/
theorem C6_amended_last_range_cache_witness :
    SeekingS3.ReadAt (objBackend [10, 20, 30, 40, 50, 60, 70, 80])
        ⟨0, some [10, 20, 30, 40], 0, 8⟩ 2 1
      = ⟨2, [20, 30], none, ⟨0, some [10, 20, 30, 40], 0, 8⟩, []⟩ ∧
    (SeekingS3.ReadAt (objBackend [10, 20, 30, 40, 50, 60, 70, 80])
        ⟨0, some [10, 20, 30, 40], 0, 8⟩ 2 4).reqs = [Req.getReq 4 5] ∧
    (SeekingS3.ReadAt (objBackend [10, 20, 30, 40, 50, 60, 70, 80])
        ⟨0, some [10, 20, 30, 40], 0, 8⟩ 2 4).st.last = some [50, 60] ∧
    (SeekingS3.ReadAt (objBackend [10, 20, 30, 40, 50, 60, 70, 80])
        ⟨0, some [10, 20, 30, 40], 0, 8⟩ 2 4).st.lastOffset = 4 := by
  have hhit := (C6_amended_last_range_cache [10, 20, 30, 40, 50, 60, 70, 80]
    ⟨0, some [10, 20, 30, 40], 0, 8⟩ 2 1 rfl).1 [10, 20, 30, 40]
    (by intro c hc; cases hc; exact ⟨by decide, by decide, by decide⟩)
    rfl (by decide) (by decide)
  have hmiss := (C6_amended_last_range_cache [10, 20, 30, 40, 50, 60, 70, 80]
    ⟨0, some [10, 20, 30, 40], 0, 8⟩ 2 4 rfl).2 (by decide) (by decide)
    (by decide)
  refine ⟨hhit.1.trans (by decide), hmiss.1.trans (by decide),
    hmiss.2.1.trans (by decide), hmiss.2.2⟩

/-- Failure step of the region retry (src/s3readerat.go lines 264-279):
when the first request fails, the outcome is determined by
extractRegionFromError and s3ClientInRegion — no retry and the original
error when no region is recoverable or no region-bound client exists, one
retry whose outcome is returned as-is otherwise. -/
theorem S3ReaderAt.withRegionRetry_fail {α : Type}
    (respond : Client → Except GoErr α) (st st1 : S3ReaderAt) (c : Client)
    (ks : List Client) (e0 : GoErr)
    (hsc : S3ReaderAt.s3Client st = (some c, st1, ks))
    (hfail : respond c = .error e0) :
    S3ReaderAt.withRegionRetry respond st =
      (match extractRegionFromError e0 with
      | none => ⟨.error e0, st1, [c], ks⟩
      | some region =>
        match S3ReaderAt.s3ClientInRegion st1 region with
        | (none, ks2) => ⟨.error e0, st1, [c], ks ++ ks2⟩
        | (some c2, ks2) => ⟨respond c2, st1, [c, c2], ks ++ ks2⟩) := by
  unfold S3ReaderAt.withRegionRetry
  rw [hsc]
  simp only
  rw [hfail]

/-- Characterisation of extractRegionFromError (src/s3readerat.go lines
285-302): a region is recoverable from an error exactly when it is a
ResponseError with a 3xx status code and a non-empty
X-Amz-Bucket-Region header. -/
theorem extract_iff (e : GoErr) : (extractRegionFromError e).isSome ↔
    ∃ status header, e = .responseError status header ∧
      status / 100 = 3 ∧ ¬ header = "" := by
  cases e with
  | responseError status header =>
    simp only [extractRegionFromError]
    by_cases h3 : status / 100 = 3
    · by_cases hh : header = ""
      · simp [h3, hh]
      · rw [if_neg (by omega : ¬ status / 100 ≠ 3), if_neg hh]
        simp only [Option.isSome_some, true_iff]
        exact ⟨status, header, rfl, h3, hh⟩
    · simp [h3]
  | invalidSize cl => simp [extractRegionFromError]
  | otherErr t => simp [extractRegionFromError]

/-- Claim C7: for every failed backend request, region recovery (a second
request) is attempted if and only if the failure is a redirect-class 3xx
response carrying the region header (extractRegionFromError succeeds) and a
region-capable configuration (s3.Options) was supplied; otherwise the
original error is surfaced unchanged; in all cases at most one retry
happens per operation (at most 2 requests), and when the retry fails its
error is surfaced as-is (the result is exactly the second response). -/
theorem C7_region_recovery_iff {α : Type} (bg : Client → Except GoErr α)
    (st : S3ReaderAt) (c : Client) (e0 : GoErr)
    (hc : (S3ReaderAt.s3Client st).1 = some c)
    (hfail : bg c = .error e0) :
    (S3ReaderAt.getObject bg st).reqs.length ≤ 2 ∧
    ((S3ReaderAt.getObject bg st).reqs.length = 2 ↔
      (extractRegionFromError e0).isSome ∧ st.options.isSome) ∧
    ((extractRegionFromError e0 = none ∨ st.options = none) →
      (S3ReaderAt.getObject bg st).res = .error e0 ∧
      (S3ReaderAt.getObject bg st).reqs = [c]) ∧
    (∀ region r0, extractRegionFromError e0 = some region →
      st.options = some r0 →
      ∃ c2, (S3ReaderAt.getObject bg st).reqs = [c, c2] ∧
        (S3ReaderAt.getObject bg st).res = bg c2 ∧
        (st.client = none → c2.region = region)) ∧
    (∀ e : GoErr, (extractRegionFromError e).isSome ↔
      ∃ status header, e = .responseError status header ∧
        status / 100 = 3 ∧ ¬ header = "") := by
  have shape :
      ((extractRegionFromError e0 = none ∨ st.options = none) ∧
        (S3ReaderAt.getObject bg st).res = .error e0 ∧
        (S3ReaderAt.getObject bg st).reqs = [c]) ∨
      (∃ region c2, extractRegionFromError e0 = some region ∧
        st.options.isSome ∧
        (S3ReaderAt.getObject bg st).reqs = [c, c2] ∧
        (S3ReaderAt.getObject bg st).res = bg c2 ∧
        (st.client = none → c2.region = region)) := by
    cases hcl : st.client with
    | some c0 =>
      have hsc : S3ReaderAt.s3Client st = (some c0, st, []) := by
        simp only [S3ReaderAt.s3Client, hcl]
      have hcc : c0 = c := by
        rw [hsc] at hc
        exact Option.some.inj hc
      rw [hcc] at hcl hsc
      have hrr := S3ReaderAt.withRegionRetry_fail bg st st c [] e0 hsc hfail
      rw [show S3ReaderAt.getObject bg st
        = S3ReaderAt.withRegionRetry bg st from rfl, hrr]
      cases hex : extractRegionFromError e0 with
      | none => exact Or.inl ⟨Or.inl rfl, rfl, rfl⟩
      | some region =>
        dsimp only
        cases hopt : st.options with
        | none =>
          have hcir : S3ReaderAt.s3ClientInRegion st region = (none, []) := by
            simp only [S3ReaderAt.s3ClientInRegion, hopt]
          rw [hcir]
          exact Or.inl ⟨Or.inr rfl, rfl, rfl⟩
        | some r0 =>
          by_cases hr : r0 = region
          · have hcir : S3ReaderAt.s3ClientInRegion st region
                = (some c, []) := by
              simp only [S3ReaderAt.s3ClientInRegion, hopt]
              rw [if_pos ⟨hr, by rw [hcl]; rfl⟩, hcl]
            rw [hcir]
            refine Or.inr ⟨region, c, rfl, by simp [hopt], rfl, rfl, ?_⟩
            intro h
            exact nomatch h
          · have hcir : S3ReaderAt.s3ClientInRegion st region
                = (some ⟨region⟩, [⟨region⟩]) := by
              simp only [S3ReaderAt.s3ClientInRegion, hopt]
              rw [if_neg (fun hand => hr hand.1)]
            rw [hcir]
            exact Or.inr ⟨region, ⟨region⟩, rfl, by simp [hopt], rfl, rfl,
              fun _ => rfl⟩
    | none =>
      cases hopt : st.options with
      | none =>
        exfalso
        simp [S3ReaderAt.s3Client, hcl, hopt] at hc
      | some r =>
        have hsc : S3ReaderAt.s3Client st
            = (some ⟨r⟩, { st with client := some ⟨r⟩ }, [⟨r⟩]) := by
          simp only [S3ReaderAt.s3Client, hcl, hopt]
        have hcc : (⟨r⟩ : Client) = c := by
          rw [hsc] at hc
          exact Option.some.inj hc
        rw [hcc] at hsc
        have hrr := S3ReaderAt.withRegionRetry_fail bg st
          { st with client := some c } c [c] e0 hsc hfail
        rw [show S3ReaderAt.getObject bg st
          = S3ReaderAt.withRegionRetry bg st from rfl, hrr]
        cases hex : extractRegionFromError e0 with
        | none => exact Or.inl ⟨Or.inl rfl, rfl, rfl⟩
        | some region =>
          dsimp only
          by_cases hr : r = region
          · have hcir : S3ReaderAt.s3ClientInRegion
                { st with client := some c } region = (some c, []) := by
              simp only [S3ReaderAt.s3ClientInRegion, hopt]
              rw [if_pos ⟨hr, rfl⟩]
            rw [hcir]
            refine Or.inr ⟨region, c, rfl, by simp [hopt], rfl, rfl, ?_⟩
            intro h
            rw [← hcc]
            rw [show (⟨r⟩ : Client).region = r from rfl]
            exact hr
          · have hcir : S3ReaderAt.s3ClientInRegion
                { st with client := some c } region
                = (some ⟨region⟩, [⟨region⟩]) := by
              simp only [S3ReaderAt.s3ClientInRegion, hopt]
              rw [if_neg (fun hand => hr hand.1)]
            rw [hcir]
            exact Or.inr ⟨region, ⟨region⟩, rfl, by simp [hopt], rfl, rfl,
              fun _ => rfl⟩
  refine ⟨?_, ?_, ?_, ?_, extract_iff⟩
  · rcases shape with ⟨_, _, hreqs⟩ | ⟨region, c2, _, _, hreqs, _, _⟩ <;>
      simp [hreqs]
  · rcases shape with ⟨hdisj, _, hreqs⟩ |
      ⟨region, c2, hex, hsome, hreqs, _, _⟩
    · rw [hreqs]
      rcases hdisj with h | h <;> simp [h]
    · rw [hreqs, hex]
      simp [hsome]
  · intro hdisj
    rcases shape with ⟨_, hres2, hreqs⟩ |
      ⟨region, c2, hex, hsome, hreqs, _, _⟩
    · exact ⟨hres2, hreqs⟩
    · exfalso
      rcases hdisj with h | h
      · rw [h] at hex
        exact nomatch hex
      · rw [h] at hsome
        simp at hsome
  · intro region r0 hex2 hopt2
    rcases shape with ⟨hdisj, _, _⟩ |
      ⟨region', c2, hex, hsome, hreqs, hres2, hcli⟩
    · exfalso
      rcases hdisj with h | h
      · rw [hex2] at h
        exact nomatch h
      · rw [hopt2] at h
        exact nomatch h
    · obtain rfl : region' = region := by
        rw [hex] at hex2
        exact Option.some.inj hex2
      exact ⟨c2, hreqs, hres2, hcli⟩

/-- Witness for C7 at a concrete input: the default client in region "a"
fails with a 301 carrying region "b"; the reader retries once on a client
bound to "b" and returns that response, two requests in all. -/
theorem C7_region_recovery_iff_witness :
    (S3ReaderAt.getObject
        (fun cl => if cl.region = "a"
          then (.error (.responseError 301 "b") : Except GoErr (List Nat))
          else .ok [9])
        ⟨0, none, some "a"⟩).reqs.length = 2 ∧
    (S3ReaderAt.getObject
        (fun cl => if cl.region = "a"
          then (.error (.responseError 301 "b") : Except GoErr (List Nat))
          else .ok [9])
        ⟨0, none, some "a"⟩).res = .ok [9] := by
  have h := C7_region_recovery_iff
    (fun cl => if cl.region = "a"
      then (.error (.responseError 301 "b") : Except GoErr (List Nat))
      else .ok [9])
    ⟨0, none, some "a"⟩ ⟨"a"⟩ (.responseError 301 "b") rfl (by rfl)
  obtain ⟨c2, hreqs, hres, hcli⟩ := h.2.2.2.1 "b" "a" rfl rfl
  have hc2 : c2 = ⟨"b"⟩ := congrArg Client.mk (hcli rfl)
  constructor
  · rw [hreqs]
    rfl
  · rw [hres, hc2]
    rfl

/-- Either variant of the region-retried operation issues at most two
client-level requests (src/s3readerat.go lines 240-280: the original
request plus at most one retry). -/
theorem S3ReaderAt.withRegionRetry_reqs_le_two {α : Type}
    (respond : Client → Except GoErr α) (st : S3ReaderAt) :
    (S3ReaderAt.withRegionRetry respond st).reqs.length ≤ 2 := by
  unfold S3ReaderAt.withRegionRetry
  repeat' split
  all_goals simp

/-- A single Size call issues at most two HeadObject requests (zero when
the size is cached, otherwise headObject's original request plus at most
one region retry). -/
theorem S3ReaderAt.SizeMR_reqs_le_two (bh : Client → Except GoErr Int)
    (st : S3ReaderAt) : (S3ReaderAt.SizeMR bh st).reqs.length ≤ 2 := by
  have hle := S3ReaderAt.withRegionRetry_reqs_le_two bh st
  unfold S3ReaderAt.SizeMR
  split
  · simp
  · rcases hh : S3ReaderAt.headObject bh st with ⟨res, st1, reqs, ks⟩
    have hreqs : reqs.length ≤ 2 := by
      have heq : S3ReaderAt.withRegionRetry bh st = ⟨res, st1, reqs, ks⟩ := hh
      rw [heq] at hle
      exact hle
    cases res with
    | error e => simpa using hreqs
    | ok cl =>
      dsimp only
      split <;> simpa using hreqs

/-- With the size already resolved, S3ReaderAt.ReadAt leaves the reader
state untouched: in particular the cached size is never changed. -/
theorem S3ReaderAt.ReadAt_st_stable (bk : FuncBackend) (st : S3ReaderAt)
    (plen : Nat) (off : Int) (h : 0 ≤ st.size) :
    (S3ReaderAt.ReadAt bk st plen off).st = st := by
  unfold S3ReaderAt.ReadAt
  split
  · rfl
  · rw [S3ReaderAt.Size_cached bk st h]
    dsimp only
    split
    · split
      · rfl
      · split
        · rfl
        · rfl
    · split
      · rfl
      · rfl

/-- With the size already resolved, SeekingS3.ReadAt never changes the
cached size (it only replaces the cache window). -/
theorem SeekingS3.ReadAt_size_stable (bk : FuncBackend) (ss : SeekingS3)
    (blen : Nat) (off : Int) (h : ss.size > -1) :
    (SeekingS3.ReadAt bk ss blen off).st.size = ss.size := by
  unfold SeekingS3.ReadAt
  rw [SeekingS3.Size_fast_path bk ss h]
  dsimp only
  split
  · rfl
  · split
    · rfl
    · split
      · rfl
      · rfl

/-- Claim C5 counterexample: a single Size call on a multi-region reader
with unresolved size whose first HeadObject fails with a 301 carrying
region "b" issues two HeadObject requests (the original and the region
retry) before succeeding — more than the single metadata request per
reader lifetime asserted by the claim. -/
theorem C5_counterexample_two_head_requests_in_one_call :
    (S3ReaderAt.SizeMR
        (fun cl => if cl.region = "a"
          then .error (.responseError 301 "b") else .ok 42)
        ⟨-1, none, some "a"⟩).reqs.length = 2 ∧
    (S3ReaderAt.SizeMR
        (fun cl => if cl.region = "a"
          then .error (.responseError 301 "b") else .ok 42)
        ⟨-1, none, some "a"⟩).res = .ok 42 := by
  refine ⟨rfl, rfl⟩

/-- Claim C5 as amended: once the cached size is non-negative (supplied at
construction or resolved by a prior successful call), every Size call on
either reader returns the cached value with no network access and no state
change, and no read operation ever changes the resolved size; an
unresolved Size call issues at most two HeadObject requests (the original
plus one region retry). -/
theorem C5_amended_size_caching :
    (∀ (bh : Client → Except GoErr Int) (st : S3ReaderAt), 0 ≤ st.size →
      S3ReaderAt.SizeMR bh st = ⟨.ok st.size, st, [], []⟩) ∧
    (∀ (bk : FuncBackend) (st : S3ReaderAt), 0 ≤ st.size →
      S3ReaderAt.Size bk st = (.ok st.size, st, [])) ∧
    (∀ (bk : FuncBackend) (ss : SeekingS3), ss.size > -1 →
      SeekingS3.Size bk ss = (.ok ss.size, ss, [])) ∧
    (∀ (bh : Client → Except GoErr Int) (st : S3ReaderAt),
      (S3ReaderAt.SizeMR bh st).reqs.length ≤ 2) ∧
    (∀ (bk : FuncBackend) (st : S3ReaderAt) (plen : Nat) (off : Int),
      0 ≤ st.size → (S3ReaderAt.ReadAt bk st plen off).st = st) ∧
    (∀ (bk : FuncBackend) (ss : SeekingS3) (blen : Nat) (off : Int),
      ss.size > -1 → (SeekingS3.ReadAt bk ss blen off).st.size = ss.size) := by
  refine ⟨?_, S3ReaderAt.Size_cached, SeekingS3.Size_fast_path,
    S3ReaderAt.SizeMR_reqs_le_two, S3ReaderAt.ReadAt_st_stable,
    SeekingS3.ReadAt_size_stable⟩
  intro bh st h
  unfold S3ReaderAt.SizeMR
  rw [if_pos h]

/-- Witness for the amended C5 at concrete inputs: a reader constructed
with size 7 answers Size with 7, no requests, no state change; the
SeekingS3 Size fast path likewise; and a read leaves the resolved size 3
unchanged. -/
theorem C5_amended_size_caching_witness :
    S3ReaderAt.SizeMR (fun _ => .ok 0) ⟨7, none, some "a"⟩
      = ⟨.ok 7, ⟨7, none, some "a"⟩, [], []⟩ ∧
    SeekingS3.Size (objBackend [1, 2, 3]) ⟨0, none, 0, 9⟩
      = (.ok 9, ⟨0, none, 0, 9⟩, []) ∧
    (SeekingS3.ReadAt (objBackend [1, 2, 3]) ⟨0, none, 0, 3⟩ 2 0).st.size
      = 3 :=
  ⟨C5_amended_size_caching.1 (fun _ => .ok 0) ⟨7, none, some "a"⟩
      (by decide),
   C5_amended_size_caching.2.2.1 (objBackend [1, 2, 3]) ⟨0, none, 0, 9⟩
      (by decide),
   C5_amended_size_caching.2.2.2.2.2 (objBackend [1, 2, 3]) ⟨0, none, 0, 3⟩
      2 0 (by decide)⟩

/-- Claim C8 counterexample: two successive getObject operations on the
same multi-region reader, both redirected to region "b", construct a
client bound to "b" twice — the regional client is not cached (the
post-state still holds only the default client for region "a"), so it is
not "constructed at most once per reader lifetime". -/
theorem C8_counterexample_regional_client_rebuilt :
    ((S3ReaderAt.getObject
        (fun _ => (.error (.responseError 301 "b") : Except GoErr (List Nat)))
        ⟨0, none, some "a"⟩).newClients ++
      (S3ReaderAt.getObject
        (fun _ => (.error (.responseError 301 "b") : Except GoErr (List Nat)))
        (S3ReaderAt.getObject
          (fun _ => (.error (.responseError 301 "b") : Except GoErr (List Nat)))
          ⟨0, none, some "a"⟩).st).newClients).count ⟨"b"⟩ = 2 ∧
    (S3ReaderAt.getObject
        (fun _ => (.error (.responseError 301 "b") : Except GoErr (List Nat)))
        (S3ReaderAt.getObject
          (fun _ => (.error (.responseError 301 "b") : Except GoErr (List Nat)))
          ⟨0, none, some "a"⟩).st).st.client = some ⟨"a"⟩ := by
  refine ⟨rfl, rfl⟩

/-- Claim C8 as amended: s3ClientInRegion does not cache the regional
client (src/s3readerat.go lines 234-237 construct and return it without
storing it).  On a recovery to a region different from the configured one,
a fresh client bound to that region is constructed, while the reader keeps
only the lazily constructed default client, so every later recovery to the
same region constructs the client again; only a recovery targeting the
configured region itself reuses the cached default client. -/
theorem C8_amended_regional_client_not_cached {α : Type}
    (bg : Client → Except GoErr α) (st : S3ReaderAt) (e0 : GoErr)
    (region r0 : String)
    (hcl : st.client = none) (hopt : st.options = some r0)
    (hfail : bg ⟨r0⟩ = .error e0)
    (hex : extractRegionFromError e0 = some region) (hne : r0 ≠ region) :
    (⟨region⟩ : Client) ∈ (S3ReaderAt.getObject bg st).newClients ∧
    (S3ReaderAt.getObject bg st).st.client = some ⟨r0⟩ ∧
    (S3ReaderAt.getObject bg st).st.client ≠ some ⟨region⟩ ∧
    (S3ReaderAt.getObject bg st).st.options = some r0 := by
  have hsc : S3ReaderAt.s3Client st
      = (some ⟨r0⟩, { st with client := some ⟨r0⟩ }, [⟨r0⟩]) := by
    simp only [S3ReaderAt.s3Client, hcl, hopt]
  have hrr := S3ReaderAt.withRegionRetry_fail bg st
    { st with client := some (⟨r0⟩ : Client) } ⟨r0⟩ [⟨r0⟩] e0 hsc hfail
  rw [show S3ReaderAt.getObject bg st
    = S3ReaderAt.withRegionRetry bg st from rfl, hrr, hex]
  dsimp only
  have hcir : S3ReaderAt.s3ClientInRegion
      { st with client := some (⟨r0⟩ : Client) } region
      = (some ⟨region⟩, [⟨region⟩]) := by
    simp only [S3ReaderAt.s3ClientInRegion, hopt]
    rw [if_neg (fun hand => hne hand.1)]
  rw [hcir]
  refine ⟨by simp, rfl, ?_, hopt⟩
  simp only [ne_eq, Option.some.injEq, Client.mk.injEq]
  exact hne

/-- Witness for the amended C8 at a concrete input: a redirect from the
configured region "a" to region "b" constructs a client for "b" that is
not retained — afterwards the reader still holds only the default client
for "a". -/
theorem C8_amended_regional_client_not_cached_witness :
    (⟨"b"⟩ : Client) ∈ (S3ReaderAt.getObject
        (fun _ => (.error (.responseError 301 "b") : Except GoErr (List Nat)))
        ⟨0, none, some "a"⟩).newClients ∧
    (S3ReaderAt.getObject
        (fun _ => (.error (.responseError 301 "b") : Except GoErr (List Nat)))
        ⟨0, none, some "a"⟩).st.client = some ⟨"a"⟩ ∧
    (S3ReaderAt.getObject
        (fun _ => (.error (.responseError 301 "b") : Except GoErr (List Nat)))
        ⟨0, none, some "a"⟩).st.client ≠ some ⟨"b"⟩ := by
  have h := C8_amended_regional_client_not_cached
    (fun _ => (.error (.responseError 301 "b") : Except GoErr (List Nat)))
    ⟨0, none, some "a"⟩ (.responseError 301 "b") "b" "a" rfl rfl rfl rfl
    (by decide)
  exact ⟨h.1, h.2.1, h.2.2.1⟩
